import Mathlib

/-!
Shallow embedding of the quest / party / application / rating workflow of the
look-for-party backend (src/backend/app).  Database tables are lists of rows
kept in insertion order; UUID primary keys are modelled as naturals drawn from
a fresh-id counter; `datetime.utcnow()` is a natural number clock stored in the
database state.  Route handlers and CRUD functions are translated into pure
functions returning `Except ApiError (DB × result)`; raising `HTTPException`
before `session.commit()` corresponds to returning `.error e` with the state
unchanged.
-/

/-- Quest lifecycle states (app/models/quest.py, `QuestStatus`). -/
inductive QuestStatus
  | RECRUITING
  | IN_PROGRESS
  | COMPLETED
  | CANCELLED
  | EXPIRED
deriving DecidableEq, Repr

/-- Quest kinds (app/models/quest.py, `QuestType`). -/
inductive QuestType
  | INDIVIDUAL
  | PARTY_INTERNAL
  | PARTY_EXPANSION
  | PARTY_HYBRID
deriving DecidableEq, Repr

/-- Application states (app/models/application.py, `ApplicationStatus`). -/
inductive ApplicationStatus
  | PENDING
  | APPROVED
  | REJECTED
  | WITHDRAWN
  | EXPIRED
deriving DecidableEq, Repr

/-- Party states (app/models/party.py, `PartyStatus`). -/
inductive PartyStatus
  | ACTIVE
  | COMPLETED
  | ARCHIVED
deriving DecidableEq, Repr

/-- Party member roles (app/models/party.py, `PartyMemberRole`). -/
inductive PartyMemberRole
  | OWNER
  | MODERATOR
  | MEMBER
deriving DecidableEq, Repr

/-- User rows; only the fields read by the modelled endpoints are kept
(app/models/user.py).  `reputation_score` is the denormalised mean kept by
app/crud/rating.py. -/
structure User where
  id : Nat
  is_superuser : Bool
  reputation_score : ℚ
deriving DecidableEq, Repr

/-- Quest rows (app/models/quest.py, `Quest`).  Fields that are only copied
through and never read by the modelled endpoints (category, commitment,
location, visibility, analytics counters) are omitted. -/
structure Quest where
  id : Nat
  creator_id : Nat
  title : String
  description : String
  objective : String
  status : QuestStatus
  quest_type : QuestType
  party_size_min : Nat
  party_size_max : Nat
  parent_party_id : Option Nat
  starts_at : Option Nat
  deadline : Option Nat
  updated_at : Nat
  completed_at : Option Nat
deriving DecidableEq, Repr

/-- Quest application rows (app/models/application.py, `QuestApplication`). -/
structure QuestApplication where
  id : Nat
  quest_id : Nat
  applicant_id : Nat
  status : ApplicationStatus
  message : String
  proposed_role : Option String
  relevant_skills : Option String
  reviewer_feedback : Option String
  reviewed_at : Option Nat
  updated_at : Nat
deriving DecidableEq, Repr

/-- Party rows (app/models/party.py, `Party`). -/
structure Party where
  id : Nat
  quest_id : Nat
  name : Option String
  description : Option String
  status : PartyStatus
deriving DecidableEq, Repr

/-- Party membership rows (app/models/party.py, `PartyMember`).  The source
keeps `status` as a loose string with values such as "active"/"inactive", so
the model does too. -/
structure PartyMember where
  id : Nat
  party_id : Nat
  user_id : Nat
  role : PartyMemberRole
  status : String
  left_at : Option Nat
deriving DecidableEq, Repr

/-- Rating rows (app/models/rating.py, `Rating`). -/
structure Rating where
  id : Nat
  party_id : Nat
  rater_id : Nat
  rated_user_id : Nat
  overall_rating : Nat
  collaboration_rating : Nat
  communication_rating : Nat
  reliability_rating : Nat
  skill_rating : Nat
  would_collaborate_again : Bool
  review_text : Option String
  updated_at : Nat
deriving DecidableEq, Repr

/-- The relational store plus the fresh-id counter and the request clock.
Rows are kept in insertion order, which for this schema coincides with
`created_at` / `applied_at` / `joined_at` order. -/
structure DB where
  users : List User
  quests : List Quest
  applications : List QuestApplication
  parties : List Party
  members : List PartyMember
  ratings : List Rating
  next_id : Nat
  now : Nat
deriving DecidableEq, Repr

/-- HTTP error outcomes distinguished by the handlers: 404, 403, 400. -/
inductive ApiError
  | notFound
  | forbidden
  | badRequest
deriving DecidableEq, Repr

/-! ### CRUD lookup helpers (app/crud)

`select(...).where(id == ...).first()` and `session.get(Model, id)` become
`List.find?`; mutating a loaded row followed by `session.commit()` becomes
replacing the row with the matching primary key. -/

/-- app/crud/quest.py `get_quest`. -/
def get_quest (db : DB) (quest_id : Nat) : Option Quest :=
  db.quests.find? (fun q => q.id == quest_id)

/-- app/crud/party.py `get_party` lookup by primary key. -/
def get_party (db : DB) (party_id : Nat) : Option Party :=
  db.parties.find? (fun p => p.id == party_id)

/-- app/crud/party_member.py `get_party_member`. -/
def get_party_member (db : DB) (member_id : Nat) : Option PartyMember :=
  db.members.find? (fun m => m.id == member_id)

/-- app/crud/party_member.py `get_party_members` (ordered by `joined_at`,
which is insertion order here). -/
def get_party_members (db : DB) (party_id : Nat) (active_only : Bool := true) :
    List PartyMember :=
  db.members.filter
    (fun m => m.party_id == party_id && (!active_only || m.status == "active"))

/-- app/crud/quest_application.py `get_quest_application`. -/
def get_quest_application (db : DB) (application_id : Nat) :
    Option QuestApplication :=
  db.applications.find? (fun a => a.id == application_id)

/-- app/crud/quest_application.py `get_user_applications` without a status
filter (the ordering by `applied_at desc` is irrelevant to the callers
modelled here, which only scan for membership). -/
def get_user_applications (db : DB) (applicant_id : Nat) :
    List QuestApplication :=
  db.applications.filter (fun a => a.applicant_id == applicant_id)

/-- `session.get(Rating, id)` in app/crud/rating.py `get_rating`. -/
def get_rating (db : DB) (rating_id : Nat) : Option Rating :=
  db.ratings.find? (fun r => r.id == rating_id)

/-- `session.get(User, id)`. -/
def get_user (db : DB) (user_id : Nat) : Option User :=
  db.users.find? (fun u => u.id == user_id)

/-- The `APPROVED` applications of a quest, as selected twice inside
`close_quest` (no `order_by`: rows come back in table order, which is
application order in this model). -/
def approved_applications (db : DB) (quest_id : Nat) : List QuestApplication :=
  db.applications.filter
    (fun a => a.quest_id == quest_id && a.status == ApplicationStatus.APPROVED)

/-- Replace the quest row with the given primary key (`session.add` of a
mutated loaded row + `session.commit`). -/
def DB.setQuest (db : DB) (q : Quest) : DB :=
  { db with quests := db.quests.map (fun x => if x.id == q.id then q else x) }

/-- Replace the application row with the given primary key. -/
def DB.setApplication (db : DB) (a : QuestApplication) : DB :=
  { db with applications :=
      db.applications.map (fun x => if x.id == a.id then a else x) }

/-- Replace the member row with the given primary key. -/
def DB.setMember (db : DB) (m : PartyMember) : DB :=
  { db with members := db.members.map (fun x => if x.id == m.id then m else x) }

/-- Replace the rating row with the given primary key. -/
def DB.setRating (db : DB) (r : Rating) : DB :=
  { db with ratings := db.ratings.map (fun x => if x.id == r.id then r else x) }

/-- Replace the user row with the given primary key. -/
def DB.setUser (db : DB) (u : User) : DB :=
  { db with users := db.users.map (fun x => if x.id == u.id then u else x) }

/-! ### Quest endpoints (app/api/routes/quests.py) -/

/-- Payload of `POST /quests` (app/models/quest.py `QuestCreate`); the fields
not modelled on `Quest` are omitted.  Pydantic's per-field range checks
(1 ≤ size ≤ 50, string lengths) happen before the handler and are outside
this model. -/
structure QuestCreate where
  title : String
  description : String
  objective : String
  party_size_min : Nat
  party_size_max : Nat
  starts_at : Option Nat := none
  deadline : Option Nat := none
  quest_type : QuestType := QuestType.INDIVIDUAL
deriving DecidableEq, Repr

/-- Payload of `PUT /quests/{id}` (app/models/quest.py `QuestUpdate`); `none`
means the field was not supplied (pydantic `exclude_unset`). -/
structure QuestUpdate where
  title : Option String := none
  description : Option String := none
  objective : Option String := none
  party_size_min : Option Nat := none
  party_size_max : Option Nat := none
  starts_at : Option Nat := none
  deadline : Option Nat := none
  status : Option QuestStatus := none
  quest_type : Option QuestType := none
deriving DecidableEq, Repr

/-- app/api/routes/quests.py `create_quest`: party-size check, past-start
check, deadline-after-start check, then insert with status `RECRUITING`. -/
def create_quest (db : DB) (current_user : User) (quest_in : QuestCreate) :
    Except ApiError (DB × Quest) :=
  if quest_in.party_size_min > quest_in.party_size_max then
    Except.error ApiError.badRequest
  else if (match quest_in.starts_at with
           | some s => decide (s < db.now)
           | none => false) then
    Except.error ApiError.badRequest
  else if (match quest_in.starts_at, quest_in.deadline with
           | some s, some d => decide (d ≤ s)
           | _, _ => false) then
    Except.error ApiError.badRequest
  else
    let quest : Quest :=
      { id := db.next_id
        creator_id := current_user.id
        title := quest_in.title
        description := quest_in.description
        objective := quest_in.objective
        status := QuestStatus.RECRUITING
        quest_type := quest_in.quest_type
        party_size_min := quest_in.party_size_min
        party_size_max := quest_in.party_size_max
        parent_party_id := none
        starts_at := quest_in.starts_at
        deadline := quest_in.deadline
        updated_at := db.now
        completed_at := none }
    Except.ok
      ({ db with quests := db.quests ++ [quest], next_id := db.next_id + 1 },
       quest)

/-- app/crud/quest.py `update_quest`: `sqlmodel_update` of exactly the
supplied fields. -/
def apply_quest_update (q : Quest) (quest_in : QuestUpdate) : Quest :=
  { q with
    title := quest_in.title.getD q.title
    description := quest_in.description.getD q.description
    objective := quest_in.objective.getD q.objective
    party_size_min := quest_in.party_size_min.getD q.party_size_min
    party_size_max := quest_in.party_size_max.getD q.party_size_max
    starts_at := (match quest_in.starts_at with
                  | some s => some s
                  | none => q.starts_at)
    deadline := (match quest_in.deadline with
                 | some d => some d
                 | none => q.deadline)
    status := quest_in.status.getD q.status
    quest_type := quest_in.quest_type.getD q.quest_type }

/-- app/api/routes/quests.py `update_quest`: 404, creator/superuser check,
party-size pair check only when BOTH sizes are supplied, merged timeline
check, then unconditional `sqlmodel_update` (including any supplied
`status`). -/
def update_quest (db : DB) (current_user : User) (quest_id : Nat)
    (quest_in : QuestUpdate) : Except ApiError (DB × Quest) :=
  match get_quest db quest_id with
  | none => Except.error ApiError.notFound
  | some quest =>
    if quest.creator_id != current_user.id && !current_user.is_superuser then
      Except.error ApiError.forbidden
    else if (match quest_in.party_size_min, quest_in.party_size_max with
             | some a, some b => decide (a > b)
             | _, _ => false) then
      Except.error ApiError.badRequest
    else
      let starts_at := (match quest_in.starts_at with
                        | some s => some s
                        | none => quest.starts_at)
      let deadline := (match quest_in.deadline with
                       | some d => some d
                       | none => quest.deadline)
      if (match starts_at, deadline with
          | some s, some d => decide (d ≤ s)
          | _, _ => false) then
        Except.error ApiError.badRequest
      else
        let quest1 := apply_quest_update quest quest_in
        Except.ok (db.setQuest quest1, quest1)

/-- The permission block repeated verbatim in `close_quest`, `complete_quest`
and `cancel_quest` (app/api/routes/quests.py): creator or superuser, or an
active OWNER/MODERATOR of the quest's parent party. -/
def can_manage_quest (db : DB) (current_user : User) (quest : Quest) : Bool :=
  if quest.creator_id == current_user.id || current_user.is_superuser then
    true
  else
    match quest.parent_party_id with
    | some ppid =>
      match db.members.find?
          (fun m => m.party_id == ppid && m.user_id == current_user.id &&
                    m.status == "active") with
      | some pm =>
        pm.role == PartyMemberRole.OWNER || pm.role == PartyMemberRole.MODERATOR
      | none => false
    | none => false

/-- The member rows inserted by the INDIVIDUAL branch of `close_quest`: one
active MEMBER per approved application, in the order the select returned
them, with fresh primary keys. -/
def member_rows (party_id : Nat) (fresh : Nat) :
    List QuestApplication → List PartyMember
  | [] => []
  | a :: rest =>
    { id := fresh
      party_id := party_id
      user_id := a.applicant_id
      role := PartyMemberRole.MEMBER
      status := "active"
      left_at := none } :: member_rows party_id (fresh + 1) rest

/-- One iteration of the PARTY_EXPANSION loop of `close_quest`: insert the
applicant as an active MEMBER of the parent party unless a membership row for
that (party, user) pair already exists.  The existence query sees rows
inserted by earlier iterations (SQLAlchemy autoflush). -/
def expansion_step (parent_party_id : Nat) (db : DB) (a : QuestApplication) :
    DB :=
  if db.members.any
      (fun m => m.party_id == parent_party_id &&
                m.user_id == a.applicant_id) then
    db
  else
    { db with
      members := db.members ++
        [{ id := db.next_id
           party_id := parent_party_id
           user_id := a.applicant_id
           role := PartyMemberRole.MEMBER
           status := "active"
           left_at := none }]
      next_id := db.next_id + 1 }

/-- The per-type side-effect block in the middle of `close_quest`
(app/api/routes/quests.py): INDIVIDUAL creates a party with the creator as
OWNER followed by one active MEMBER row per approved application; a
PARTY_EXPANSION quest with a parent party runs the idempotent-merge loop;
PARTY_INTERNAL and PARTY_HYBRID fall through without touching parties (the
PARTY_INTERNAL arm is even commented out in the source). -/
def close_side_effects (db : DB) (quest : Quest) : DB :=
  match quest.quest_type with
  | QuestType.INDIVIDUAL =>
    let party : Party :=
      { id := db.next_id
        quest_id := quest.id
        name := some ("Party for " ++ quest.title)
        description := some ("Party formed from quest: " ++ quest.objective)
        status := PartyStatus.ACTIVE }
    let creator_member : PartyMember :=
      { id := db.next_id + 1
        party_id := party.id
        user_id := quest.creator_id
        role := PartyMemberRole.OWNER
        status := "active"
        left_at := none }
    let new_members :=
      member_rows party.id (db.next_id + 2) (approved_applications db quest.id)
    { db with
      parties := db.parties ++ [party]
      members := db.members ++ creator_member :: new_members
      next_id := db.next_id + 2 + new_members.length }
  | QuestType.PARTY_EXPANSION =>
    match quest.parent_party_id with
    | some ppid =>
      (approved_applications db quest.id).foldl (expansion_step ppid) db
    | none => db
  | QuestType.PARTY_INTERNAL => db
  | QuestType.PARTY_HYBRID => db

/-- app/api/routes/quests.py `close_quest`: 404; only RECRUITING quests; the
shared permission block; the minimum-size check
`approved_count + 1 < party_size_min`; then the per-type side effects and the
status flip to IN_PROGRESS.  No check ever reads `party_size_max`. -/
def close_quest (db : DB) (current_user : User) (quest_id : Nat) :
    Except ApiError (DB × Quest) :=
  match get_quest db quest_id with
  | none => Except.error ApiError.notFound
  | some quest =>
    if quest.status != QuestStatus.RECRUITING then
      Except.error ApiError.badRequest
    else if !can_manage_quest db current_user quest then
      Except.error ApiError.forbidden
    else
      let approved_count := (approved_applications db quest.id).length
      let total_party_size := approved_count + 1
      if total_party_size < quest.party_size_min then
        Except.error ApiError.badRequest
      else
        let db1 := close_side_effects db quest
        let quest1 :=
          { quest with status := QuestStatus.IN_PROGRESS, updated_at := db.now }
        Except.ok (db1.setQuest quest1, quest1)

/-- app/api/routes/quests.py `complete_quest`: 404; only IN_PROGRESS quests;
the shared permission block; then status COMPLETED and `completed_at`. -/
def complete_quest (db : DB) (current_user : User) (quest_id : Nat) :
    Except ApiError (DB × Quest) :=
  match get_quest db quest_id with
  | none => Except.error ApiError.notFound
  | some quest =>
    if quest.status != QuestStatus.IN_PROGRESS then
      Except.error ApiError.badRequest
    else if !can_manage_quest db current_user quest then
      Except.error ApiError.forbidden
    else
      let quest1 :=
        { quest with
          status := QuestStatus.COMPLETED
          completed_at := some db.now
          updated_at := db.now }
      Except.ok (db.setQuest quest1, quest1)

/-- app/api/routes/quests.py `cancel_quest`: 404; only RECRUITING or
IN_PROGRESS quests; the shared permission block; then status CANCELLED. -/
def cancel_quest (db : DB) (current_user : User) (quest_id : Nat) :
    Except ApiError (DB × Quest) :=
  match get_quest db quest_id with
  | none => Except.error ApiError.notFound
  | some quest =>
    if quest.status != QuestStatus.RECRUITING &&
       quest.status != QuestStatus.IN_PROGRESS then
      Except.error ApiError.badRequest
    else if !can_manage_quest db current_user quest then
      Except.error ApiError.forbidden
    else
      let quest1 :=
        { quest with status := QuestStatus.CANCELLED, updated_at := db.now }
      Except.ok (db.setQuest quest1, quest1)

/-! ### Quest application endpoints (app/api/routes/quest_applications.py) -/

/-- Payload of the apply endpoint (app/models/application.py
`QuestApplicationCreate`). -/
structure QuestApplicationCreate where
  message : String
  proposed_role : Option String := none
  relevant_skills : Option String := none
deriving DecidableEq, Repr

/-- Payload of `PUT /quest-applications/{id}` (app/models/application.py
`QuestApplicationUpdate`); `none` means not supplied. -/
structure QuestApplicationUpdate where
  message : Option String := none
  proposed_role : Option String := none
  relevant_skills : Option String := none
  status : Option ApplicationStatus := none
  reviewer_feedback : Option String := none
deriving DecidableEq, Repr

/-- app/api/routes/quest_applications.py `apply_to_quest`: 404; quest must be
RECRUITING; the creator cannot apply; rejected while the user already has a
PENDING or APPROVED application for the quest; otherwise insert a PENDING
application. -/
def apply_to_quest (db : DB) (current_user : User) (quest_id : Nat)
    (application_in : QuestApplicationCreate) :
    Except ApiError (DB × QuestApplication) :=
  match get_quest db quest_id with
  | none => Except.error ApiError.notFound
  | some quest =>
    if quest.status != QuestStatus.RECRUITING then
      Except.error ApiError.badRequest
    else if quest.creator_id == current_user.id then
      Except.error ApiError.badRequest
    else if (get_user_applications db current_user.id).any
        (fun a => a.quest_id == quest_id &&
                  (a.status == ApplicationStatus.PENDING ||
                   a.status == ApplicationStatus.APPROVED)) then
      Except.error ApiError.badRequest
    else
      let application : QuestApplication :=
        { id := db.next_id
          quest_id := quest_id
          applicant_id := current_user.id
          status := ApplicationStatus.PENDING
          message := application_in.message
          proposed_role := application_in.proposed_role
          relevant_skills := application_in.relevant_skills
          reviewer_feedback := none
          reviewed_at := none
          updated_at := db.now }
      Except.ok
        ({ db with
           applications := db.applications ++ [application]
           next_id := db.next_id + 1 },
         application)

/-- app/crud/quest_application.py `update_quest_application`: apply the
supplied fields, always bump `updated_at`, and stamp `reviewed_at` when the
new status is APPROVED or REJECTED. -/
def update_quest_application (db : DB) (db_application : QuestApplication)
    (application_in : QuestApplicationUpdate) : DB × QuestApplication :=
  let application1 : QuestApplication :=
    { db_application with
      message := application_in.message.getD db_application.message
      proposed_role :=
        (match application_in.proposed_role with
         | some r => some r
         | none => db_application.proposed_role)
      relevant_skills :=
        (match application_in.relevant_skills with
         | some s => some s
         | none => db_application.relevant_skills)
      status := application_in.status.getD db_application.status
      reviewer_feedback :=
        (match application_in.reviewer_feedback with
         | some f => some f
         | none => db_application.reviewer_feedback)
      updated_at := db.now
      reviewed_at :=
        if application_in.status == some ApplicationStatus.APPROVED ||
           application_in.status == some ApplicationStatus.REJECTED then
          some db.now
        else db_application.reviewed_at }
  (db.setApplication application1, application1)

/-- app/api/routes/quest_applications.py `update_application`: 404 on missing
application or quest; a supplied `status` needs the quest creator (or a
superuser) and a PENDING application; a supplied `message` or `proposed_role`
needs the applicant (or a superuser) and a PENDING application; then the CRUD
update. -/
def update_application (db : DB) (current_user : User) (application_id : Nat)
    (application_in : QuestApplicationUpdate) :
    Except ApiError (DB × QuestApplication) :=
  match get_quest_application db application_id with
  | none => Except.error ApiError.notFound
  | some application =>
    match get_quest db application.quest_id with
    | none => Except.error ApiError.notFound
    | some quest =>
      let is_creator := quest.creator_id == current_user.id
      let is_applicant := application.applicant_id == current_user.id
      if application_in.status.isSome && !is_creator &&
         !current_user.is_superuser then
        Except.error ApiError.forbidden
      else if application_in.status.isSome &&
              application.status != ApplicationStatus.PENDING then
        Except.error ApiError.badRequest
      else if (application_in.message.isSome ||
               application_in.proposed_role.isSome) &&
              !is_applicant && !current_user.is_superuser then
        Except.error ApiError.forbidden
      else if (application_in.message.isSome ||
               application_in.proposed_role.isSome) &&
              application.status != ApplicationStatus.PENDING then
        Except.error ApiError.badRequest
      else
        Except.ok (update_quest_application db application application_in)

/-- app/api/routes/quest_applications.py `withdraw_application`: 404; only
the applicant (or a superuser); only PENDING applications; then a CRUD update
setting status WITHDRAWN. -/
def withdraw_application (db : DB) (current_user : User)
    (application_id : Nat) : Except ApiError DB :=
  match get_quest_application db application_id with
  | none => Except.error ApiError.notFound
  | some application =>
    if application.applicant_id != current_user.id &&
       !current_user.is_superuser then
      Except.error ApiError.forbidden
    else if application.status != ApplicationStatus.PENDING then
      Except.error ApiError.badRequest
    else
      Except.ok
        (update_quest_application db application
          { status := some ApplicationStatus.WITHDRAWN }).1

/-! ### Party member endpoints (app/api/routes/parties.py) -/

/-- Payload of `POST /parties/{id}/members` (app/models/party.py
`PartyMemberCreate`). -/
structure PartyMemberCreate where
  user_id : Nat
  role : PartyMemberRole := PartyMemberRole.MEMBER
  status : String := "active"
deriving DecidableEq, Repr

/-- app/api/routes/parties.py `add_party_member`: 404; creator / leader /
superuser permission; duplicate-active-member check; capacity check against
the quest's `party_size_max` over the active members (skipped if the quest
row is gone); then insert. -/
def add_party_member (db : DB) (current_user : User) (party_id : Nat)
    (member_in : PartyMemberCreate) : Except ApiError (DB × PartyMember) :=
  match get_party db party_id with
  | none => Except.error ApiError.notFound
  | some party =>
    let quest := get_quest db party.quest_id
    let is_creator := (match quest with
                       | some q => q.creator_id == current_user.id
                       | none => false)
    let members := get_party_members db party_id
    let is_leader := members.any
      (fun m => m.user_id == current_user.id &&
                (m.role == PartyMemberRole.OWNER ||
                 m.role == PartyMemberRole.MODERATOR))
    if !is_creator && !is_leader && !current_user.is_superuser then
      Except.error ApiError.forbidden
    else if members.any
        (fun m => m.user_id == member_in.user_id && m.status == "active") then
      Except.error ApiError.badRequest
    else
      let at_capacity : Bool :=
        match quest with
        | some q =>
          decide ((members.filter (fun m => m.status == "active")).length
            ≥ q.party_size_max)
        | none => false
      if at_capacity then
        Except.error ApiError.badRequest
    else
      let member : PartyMember :=
        { id := db.next_id
          party_id := party_id
          user_id := member_in.user_id
          role := member_in.role
          status := member_in.status
          left_at := none }
      Except.ok
        ({ db with
           members := db.members ++ [member]
           next_id := db.next_id + 1 },
         member)

/-- app/api/routes/parties.py `remove_party_member` together with
app/crud/party_member.py `remove_party_member`: 404 on missing party or
member (or a member of another party); creator / leader / self / superuser
permission; an explicit 400 when the target member is the quest creator; the
removal itself is a soft delete (status "inactive", `left_at` set). -/
def remove_party_member (db : DB) (current_user : User) (party_id : Nat)
    (member_id : Nat) : Except ApiError DB :=
  match get_party db party_id with
  | none => Except.error ApiError.notFound
  | some party =>
    match get_party_member db member_id with
    | none => Except.error ApiError.notFound
    | some member =>
      if member.party_id != party_id then
        Except.error ApiError.notFound
      else
        let quest := get_quest db party.quest_id
        let is_creator := (match quest with
                           | some q => q.creator_id == current_user.id
                           | none => false)
        let is_self := member.user_id == current_user.id
        let members := get_party_members db party_id
        let is_leader := members.any
          (fun m => m.user_id == current_user.id &&
                    (m.role == PartyMemberRole.OWNER ||
                     m.role == PartyMemberRole.MODERATOR))
        if !is_creator && !is_leader && !is_self &&
           !current_user.is_superuser then
          Except.error ApiError.forbidden
        else if (match quest with
                 | some q => member.user_id == q.creator_id
                 | none => false) then
          Except.error ApiError.badRequest
        else
          Except.ok
            (db.setMember
              { member with status := "inactive", left_at := some db.now })

/-! ### Ratings (app/crud/rating.py)

The rating CRUD raises `ValueError` with a message; the model returns
`Except String`.  Python's `round(x, 2)` (round-half-to-even at two decimal
places) is modelled exactly over ℚ. -/

/-- Round a rational to the nearest integer, ties to even (Python `round`). -/
def round_half_even (q : ℚ) : ℤ :=
  let f := ⌊q⌋
  if q - f < 1 / 2 then f
  else if q - f > 1 / 2 then f + 1
  else if f % 2 = 0 then f else f + 1

/-- Python's `round(x, 2)`. -/
def round2 (q : ℚ) : ℚ := (round_half_even (q * 100) : ℚ) / 100

/-- Payload of rating creation (app/models/rating.py `RatingCreate`). -/
structure RatingCreate where
  party_id : Nat
  rated_user_id : Nat
  overall_rating : Nat
  collaboration_rating : Nat
  communication_rating : Nat
  reliability_rating : Nat
  skill_rating : Nat
  review_text : Option String := none
  would_collaborate_again : Bool := true
deriving DecidableEq, Repr

/-- Payload of rating update (app/models/rating.py `RatingUpdate`). -/
structure RatingUpdate where
  overall_rating : Option Nat := none
  collaboration_rating : Option Nat := none
  communication_rating : Option Nat := none
  reliability_rating : Option Nat := none
  skill_rating : Option Nat := none
  review_text : Option String := none
  would_collaborate_again : Option Bool := none
deriving DecidableEq, Repr

/-- The part of app/crud/rating.py `get_user_rating_summary` consumed by
reputation updates (app/models/rating.py `UserRatingSummary`).  The
`positive_feedback_percentage` column is not read by
`_update_user_reputation` and is left out. -/
structure UserRatingSummary where
  user_id : Nat
  total_ratings : Nat
  average_overall : ℚ
  average_collaboration : ℚ
  average_communication : ℚ
  average_reliability : ℚ
  average_skill : ℚ
deriving DecidableEq, Repr

/-- Mean of a projection over a list of ratings, as ℚ. -/
def rating_average (rs : List Rating) (f : Rating → Nat) : ℚ :=
  (rs.map (fun r => (f r : ℚ))).sum / rs.length

/-- app/crud/rating.py `get_user_rating_summary`: counts and two-decimal
averages over the ratings the user has received, all zero when there are
none. -/
def get_user_rating_summary (db : DB) (user_id : Nat) : UserRatingSummary :=
  let received := db.ratings.filter (fun r => r.rated_user_id == user_id)
  if received.length == 0 then
    { user_id := user_id
      total_ratings := 0
      average_overall := 0
      average_collaboration := 0
      average_communication := 0
      average_reliability := 0
      average_skill := 0 }
  else
    { user_id := user_id
      total_ratings := received.length
      average_overall := round2 (rating_average received Rating.overall_rating)
      average_collaboration :=
        round2 (rating_average received Rating.collaboration_rating)
      average_communication :=
        round2 (rating_average received Rating.communication_rating)
      average_reliability :=
        round2 (rating_average received Rating.reliability_rating)
      average_skill := round2 (rating_average received Rating.skill_rating) }

/-- app/crud/rating.py `_update_user_reputation`: store the summary's
two-decimal overall average onto the user row, when the user exists. -/
def update_user_reputation (db : DB) (user_id : Nat) : DB :=
  let summary := get_user_rating_summary db user_id
  let reputation_score := summary.average_overall
  match get_user db user_id with
  | some user => db.setUser { user with reputation_score := reputation_score }
  | none => db

/-- app/crud/rating.py `create_rating`: party must exist and be COMPLETED or
ARCHIVED; rater and rated user must be active members; no self-rating; no
duplicate (party, rater, rated) rating; then insert and recompute the rated
user's reputation. -/
def create_rating (db : DB) (rating_in : RatingCreate) (rater_id : Nat) :
    Except String (DB × Rating) :=
  match db.parties.find? (fun p => p.id == rating_in.party_id) with
  | none => Except.error "Party not found"
  | some party =>
    if party.status != PartyStatus.COMPLETED &&
       party.status != PartyStatus.ARCHIVED then
      Except.error "Can only rate members when party is completed or archived"
    else if !db.members.any
        (fun m => m.party_id == rating_in.party_id &&
                  m.user_id == rater_id && m.status == "active") then
      Except.error "Can only rate members of parties you belong to"
    else if !db.members.any
        (fun m => m.party_id == rating_in.party_id &&
                  m.user_id == rating_in.rated_user_id &&
                  m.status == "active") then
      Except.error "Can only rate members of the same party"
    else if rater_id == rating_in.rated_user_id then
      Except.error "Cannot rate yourself"
    else if db.ratings.any
        (fun r => r.party_id == rating_in.party_id &&
                  r.rater_id == rater_id &&
                  r.rated_user_id == rating_in.rated_user_id) then
      Except.error "You have already rated this user for this party"
    else
      let rating : Rating :=
        { id := db.next_id
          party_id := rating_in.party_id
          rater_id := rater_id
          rated_user_id := rating_in.rated_user_id
          overall_rating := rating_in.overall_rating
          collaboration_rating := rating_in.collaboration_rating
          communication_rating := rating_in.communication_rating
          reliability_rating := rating_in.reliability_rating
          skill_rating := rating_in.skill_rating
          would_collaborate_again := rating_in.would_collaborate_again
          review_text := rating_in.review_text
          updated_at := db.now }
      let db1 :=
        { db with
          ratings := db.ratings ++ [rating]
          next_id := db.next_id + 1 }
      Except.ok (update_user_reputation db1 rating.rated_user_id, rating)

/-- app/crud/rating.py `update_rating`: apply the supplied fields to the
loaded rating, bump `updated_at`, persist, and recompute the rated user's
reputation. -/
def update_rating (db : DB) (db_rating : Rating) (rating_in : RatingUpdate) :
    DB × Rating :=
  let rating1 : Rating :=
    { db_rating with
      overall_rating := rating_in.overall_rating.getD db_rating.overall_rating
      collaboration_rating :=
        rating_in.collaboration_rating.getD db_rating.collaboration_rating
      communication_rating :=
        rating_in.communication_rating.getD db_rating.communication_rating
      reliability_rating :=
        rating_in.reliability_rating.getD db_rating.reliability_rating
      skill_rating := rating_in.skill_rating.getD db_rating.skill_rating
      review_text :=
        (match rating_in.review_text with
         | some t => some t
         | none => db_rating.review_text)
      would_collaborate_again :=
        rating_in.would_collaborate_again.getD
          db_rating.would_collaborate_again
      updated_at := db.now }
  let db1 := db.setRating rating1
  (update_user_reputation db1 rating1.rated_user_id, rating1)

/-- app/crud/rating.py `delete_rating`: when the rating exists, delete the
row and recompute the rated user's reputation. -/
def delete_rating (db : DB) (rating_id : Nat) : DB × Option Rating :=
  match get_rating db rating_id with
  | some rating =>
    let db1 :=
      { db with ratings := db.ratings.filter (fun r => !(r.id == rating_id)) }
    (update_user_reputation db1 rating.rated_user_id, some rating)
  | none => (db, none)

/-! ### Helper lemmas about the row-replacement and insertion primitives -/

/-- Replacing the row that carries the key of an existing row makes the
keyed lookup return the replacement. -/
theorem find?_set_key {α : Type} (key : α → Nat) (l : List α) (k : Nat)
    (a a1 : α) (hf : l.find? (fun x => key x == k) = some a)
    (hid : key a1 = key a) :
    (l.map (fun x => if key x == key a1 then a1 else x)).find?
      (fun x => key x == k) = some a1 := by
  induction l with
  | nil => simp at hf
  | cons y ys ih =>
    by_cases hy : (key y == k) = true
    · rw [List.find?_cons_of_pos ys hy] at hf
      have hya : y = a := by simpa using hf
      subst hya
      simp only [List.map_cons]
      rw [if_pos (beq_iff_eq.mpr hid.symm)]
      apply List.find?_cons_of_pos
      rw [hid]
      exact hy
    · rw [List.find?_cons_of_neg ys hy] at hf
      have hpa : (key a == k) = true := by
        have h2 := List.find?_some (p := fun x => key x == k) hf
        simpa using h2
      have hne : ¬(key y == key a1) = true := by
        rw [hid]
        intro hcontr
        apply hy
        rw [beq_iff_eq.mp hcontr]
        exact hpa
      simp only [List.map_cons]
      rw [if_neg hne]
      rw [List.find?_cons_of_neg (p := fun x => key x == k) _ hy]
      exact ih hf

/-- `get_quest` after `DB.setQuest` of a row that shares the found row's
primary key. -/
theorem get_quest_set (db : DB) (qid : Nat) (q q1 : Quest)
    (hf : get_quest db qid = some q) (hid : q1.id = q.id) :
    get_quest (db.setQuest q1) qid = some q1 := by
  unfold get_quest at hf
  unfold get_quest DB.setQuest
  exact find?_set_key (fun x => x.id) db.quests qid q q1 hf hid

/-- `get_user` after `DB.setUser` of a row that shares the found row's
primary key. -/
theorem get_user_set (db : DB) (uid : Nat) (u u1 : User)
    (hf : get_user db uid = some u) (hid : u1.id = u.id) :
    get_user (db.setUser u1) uid = some u1 := by
  unfold get_user at hf
  unfold get_user DB.setUser
  exact find?_set_key (fun x => x.id) db.users uid u u1 hf hid

/-- `get_quest_application` after `DB.setApplication` of a row that shares
the found row's primary key. -/
theorem get_application_set (db : DB) (aid : Nat) (a a1 : QuestApplication)
    (hf : get_quest_application db aid = some a) (hid : a1.id = a.id) :
    get_quest_application (db.setApplication a1) aid = some a1 := by
  unfold get_quest_application at hf
  unfold get_quest_application DB.setApplication
  exact find?_set_key (fun x => x.id) db.applications aid a a1 hf hid

@[simp] theorem setQuest_parties (db : DB) (q : Quest) :
    (db.setQuest q).parties = db.parties := rfl

@[simp] theorem setQuest_members (db : DB) (q : Quest) :
    (db.setQuest q).members = db.members := rfl

@[simp] theorem setQuest_applications (db : DB) (q : Quest) :
    (db.setQuest q).applications = db.applications := rfl

@[simp] theorem setUser_ratings (db : DB) (u : User) :
    (db.setUser u).ratings = db.ratings := rfl

@[simp] theorem setApplication_quests (db : DB) (a : QuestApplication) :
    (db.setApplication a).quests = db.quests := rfl

@[simp] theorem setRating_ratings_quests (db : DB) (r : Rating) :
    (db.setRating r).users = db.users := rfl

/-- `expansion_step` never touches the quest table. -/
theorem expansion_step_quests (ppid : Nat) (db : DB) (a : QuestApplication) :
    (expansion_step ppid db a).quests = db.quests := by
  unfold expansion_step
  split <;> rfl

/-- `expansion_step` never touches the party table. -/
theorem expansion_step_parties (ppid : Nat) (db : DB) (a : QuestApplication) :
    (expansion_step ppid db a).parties = db.parties := by
  unfold expansion_step
  split <;> rfl

/-- The whole PARTY_EXPANSION loop never touches the quest table. -/
theorem expansion_fold_quests (ppid : Nat) (apps : List QuestApplication) :
    ∀ db : DB, ((apps.foldl (expansion_step ppid) db).quests = db.quests) := by
  induction apps with
  | nil => intro db; rfl
  | cons a rest ih =>
    intro db
    rw [List.foldl_cons, ih, expansion_step_quests]

/-- The whole PARTY_EXPANSION loop never touches the party table. -/
theorem expansion_fold_parties (ppid : Nat) (apps : List QuestApplication) :
    ∀ db : DB, ((apps.foldl (expansion_step ppid) db).parties = db.parties) := by
  induction apps with
  | nil => intro db; rfl
  | cons a rest ih =>
    intro db
    rw [List.foldl_cons, ih, expansion_step_parties]

/-- Length of the INDIVIDUAL-branch member rows. -/
theorem member_rows_length (pid : Nat) (apps : List QuestApplication) :
    ∀ fresh : Nat, (member_rows pid fresh apps).length = apps.length := by
  induction apps with
  | nil => intro fresh; rfl
  | cons a rest ih =>
    intro fresh
    simp only [member_rows, List.length_cons, ih]

/-- The INDIVIDUAL-branch member rows carry the applicants, in order, all
with role MEMBER. -/
theorem member_rows_users (pid : Nat) (apps : List QuestApplication) :
    ∀ fresh : Nat,
      (member_rows pid fresh apps).map (fun m => (m.user_id, m.role)) =
        apps.map (fun a => (a.applicant_id, PartyMemberRole.MEMBER)) := by
  induction apps with
  | nil => intro fresh; rfl
  | cons a rest ih =>
    intro fresh
    simp only [member_rows, List.map_cons, ih]

/-- Every INDIVIDUAL-branch member row is an active row of the new party. -/
theorem member_rows_fields (pid : Nat) (apps : List QuestApplication) :
    ∀ fresh : Nat, ∀ m ∈ member_rows pid fresh apps,
      m.party_id = pid ∧ m.status = "active" := by
  induction apps with
  | nil => intro fresh m hm; simp [member_rows] at hm
  | cons a rest ih =>
    intro fresh m hm
    rw [member_rows, List.mem_cons] at hm
    rcases hm with h | h
    · subst h
      exact ⟨rfl, rfl⟩
    · exact ih (fresh + 1) m h

/-- Number of membership rows (any status) for a (party, user) pair. -/
def pair_count (l : List PartyMember) (party_id user_id : Nat) : Nat :=
  (l.filter
    (fun m => m.party_id == party_id && m.user_id == user_id)).length

theorem pair_count_append (l1 l2 : List PartyMember) (p u : Nat) :
    pair_count (l1 ++ l2) p u = pair_count l1 p u + pair_count l2 p u := by
  simp [pair_count, List.filter_append]

/-- The pair has a row exactly when the duplicate-membership query of
`expansion_step` answers true. -/
theorem pair_count_pos_iff (l : List PartyMember) (p u : Nat) :
    0 < pair_count l p u ↔
      l.any (fun m => m.party_id == p && m.user_id == u) = true := by
  constructor
  · intro h
    rw [List.any_eq_true]
    have hne : List.filter
        (fun m => m.party_id == p && m.user_id == u) l ≠ [] :=
      List.length_pos.mp h
    rcases List.exists_mem_of_ne_nil _ hne with ⟨m, hm⟩
    rcases List.mem_filter.mp hm with ⟨hml, hpm⟩
    exact ⟨m, hml, hpm⟩
  · intro h
    rcases List.any_eq_true.mp h with ⟨m, hm, hpm⟩
    apply List.length_pos.mpr
    intro hnil
    have := List.filter_eq_nil_iff.mp hnil m hm
    exact this hpm

/-- Specification of the PARTY_EXPANSION loop: it only appends rows; every
appended row is an active MEMBER of the parent party for one of the given
applicants; no row is appended for a user who already had a membership row
in that party; and at most one row is appended per user. -/
theorem expansion_fold_spec (ppid : Nat) (apps : List QuestApplication) :
    ∀ db : DB, ∃ rows : List PartyMember,
      (apps.foldl (expansion_step ppid) db).members = db.members ++ rows ∧
      (∀ m ∈ rows, m.party_id = ppid ∧ m.role = PartyMemberRole.MEMBER ∧
         m.status = "active" ∧
         m.user_id ∈ apps.map QuestApplication.applicant_id) ∧
      (∀ uid : Nat, 0 < pair_count db.members ppid uid →
         ∀ m ∈ rows, m.user_id ≠ uid) ∧
      (∀ uid : Nat, pair_count rows ppid uid ≤ 1) := by
  induction apps with
  | nil =>
    intro db
    refine ⟨[], by simp, by simp, by simp, ?_⟩
    intro uid
    simp [pair_count]
  | cons a rest ih =>
    intro db
    rw [List.foldl_cons]
    by_cases hmem : (db.members.any
        (fun m => m.party_id == ppid && m.user_id == a.applicant_id)) = true
    · have hstep : expansion_step ppid db a = db := by
        unfold expansion_step
        rw [if_pos hmem]
      rw [hstep]
      rcases ih db with ⟨rows, h1, h2, h3, h4⟩
      refine ⟨rows, h1, ?_, h3, h4⟩
      intro m hm
      rcases h2 m hm with ⟨hp, hr, hs, hu⟩
      exact ⟨hp, hr, hs,
        by simp only [List.map_cons, List.mem_cons]; exact Or.inr hu⟩
    · set newRow : PartyMember :=
        { id := db.next_id
          party_id := ppid
          user_id := a.applicant_id
          role := PartyMemberRole.MEMBER
          status := "active"
          left_at := none } with hnew
      set db1 : DB :=
        { db with
          members := db.members ++ [newRow]
          next_id := db.next_id + 1 } with hdb1
      have hstep : expansion_step ppid db a = db1 := by
        unfold expansion_step
        rw [if_neg hmem]
      rw [hstep]
      rcases ih db1 with ⟨rows, h1, h2, h3, h4⟩
      have hmem1 : db1.members = db.members ++ [newRow] := rfl
      refine ⟨newRow :: rows, ?_, ?_, ?_, ?_⟩
      · rw [h1, hmem1, List.append_assoc]
        rfl
      · intro m hm
        rcases List.mem_cons.mp hm with h | h
        · subst h
          refine ⟨rfl, rfl, rfl, ?_⟩
          simp only [List.map_cons, List.mem_cons]
          left
          trivial
        · rcases h2 m h with ⟨hp, hr, hs, hu⟩
          exact ⟨hp, hr, hs,
            by simp only [List.map_cons, List.mem_cons]; exact Or.inr hu⟩
      · intro uid hcnt m hm
        rcases List.mem_cons.mp hm with h | h
        · subst h
          intro hequ
          apply hmem
          rw [← pair_count_pos_iff]
          have hequ2 : a.applicant_id = uid := hequ
          subst hequ2
          exact hcnt
        · apply h3 uid ?_ m h
          rw [hmem1, pair_count_append]
          exact Nat.lt_of_lt_of_le hcnt (Nat.le_add_right _ _)
      · intro uid
        by_cases hu : (newRow.party_id == ppid && newRow.user_id == uid) = true
        · have huid : a.applicant_id = uid := by
            have h5 := hu
            simp only [Bool.and_eq_true, beq_iff_eq] at h5
            exact h5.2
          have hcnt1 : 0 < pair_count db1.members ppid uid := by
            rw [hmem1, pair_count_append]
            have h6 : 0 < pair_count [newRow] ppid uid := by
              simp [pair_count, List.filter_cons, hu, huid]
            exact Nat.lt_of_lt_of_le h6 (Nat.le_add_left _ _)
          have hrows0 : pair_count rows ppid uid = 0 := by
            rw [pair_count, List.length_eq_zero, List.filter_eq_nil_iff]
            intro m hm hpm
            have hne := h3 uid hcnt1 m hm
            apply hne
            simp only [Bool.and_eq_true, beq_iff_eq] at hpm
            exact hpm.2
          rw [pair_count, List.filter_cons, if_pos hu, List.length_cons]
          have h7 : (List.filter
              (fun m => m.party_id == ppid && m.user_id == uid) rows).length =
              pair_count rows ppid uid := rfl
          rw [h7, hrows0]
        · rw [pair_count, List.filter_cons, if_neg hu]
          exact h4 uid

/-- The side-effect block of `close_quest` never touches the quest table. -/
theorem close_side_effects_quests (db : DB) (quest : Quest) :
    (close_side_effects db quest).quests = db.quests := by
  unfold close_side_effects
  cases hqt : quest.quest_type
  · rfl
  · rfl
  · cases hpp : quest.parent_party_id
    · rfl
    · rename_i ppid
      exact expansion_fold_quests ppid (approved_applications db quest.id) db
  · rfl

/-- On the INDIVIDUAL branch the side-effect block appends exactly one party
and the creator row followed by one MEMBER row per approved application. -/
theorem close_side_effects_individual (db : DB) (quest : Quest)
    (hqt : quest.quest_type = QuestType.INDIVIDUAL) :
    (close_side_effects db quest).parties =
      db.parties ++
        [{ id := db.next_id
           quest_id := quest.id
           name := some ("Party for " ++ quest.title)
           description := some ("Party formed from quest: " ++ quest.objective)
           status := PartyStatus.ACTIVE }] ∧
    (close_side_effects db quest).members =
      db.members ++
        ({ id := db.next_id + 1
           party_id := db.next_id
           user_id := quest.creator_id
           role := PartyMemberRole.OWNER
           status := "active"
           left_at := none } ::
         member_rows db.next_id (db.next_id + 2)
           (approved_applications db quest.id)) := by
  unfold close_side_effects
  rw [hqt]
  exact ⟨rfl, rfl⟩

/-- Inversion of a successful `close_quest` call: the quest was found and
RECRUITING, the caller had permission, the minimum size held, and the result
is the side-effect state with the quest flipped to IN_PROGRESS. -/
theorem close_quest_ok_inv (db : DB) (u : User) (qid : Nat) (db1 : DB)
    (q1 : Quest) (h : close_quest db u qid = Except.ok (db1, q1)) :
    ∃ quest, get_quest db qid = some quest ∧
      quest.status = QuestStatus.RECRUITING ∧
      can_manage_quest db u quest = true ∧
      quest.party_size_min ≤ (approved_applications db quest.id).length + 1 ∧
      q1 = { quest with status := QuestStatus.IN_PROGRESS,
                        updated_at := db.now } ∧
      db1 = (close_side_effects db quest).setQuest q1 := by
  unfold close_quest at h
  split at h
  · exact absurd h (by simp)
  · rename_i quest hq
    split at h
    · exact absurd h (by simp)
    · rename_i hst
      split at h
      · exact absurd h (by simp)
      · rename_i hperm
        dsimp only at h
        split at h
        · exact absurd h (by simp)
        · rename_i hmin
          rw [Except.ok.injEq, Prod.mk.injEq] at h
          obtain ⟨hdb, hq1⟩ := h
          refine ⟨quest, hq, ?_, ?_, ?_, hq1.symm, ?_⟩
          · simpa using hst
          · simpa using hperm
          · exact Nat.not_lt.mp hmin
          · rw [← hdb, ← hq1]

/-- Forward evaluation of `close_quest` when every check passes. -/
theorem close_quest_eval (db : DB) (u : User) (qid : Nat) (quest : Quest)
    (hf : get_quest db qid = some quest)
    (hst : quest.status = QuestStatus.RECRUITING)
    (hperm : can_manage_quest db u quest = true)
    (hmin : quest.party_size_min ≤
      (approved_applications db quest.id).length + 1) :
    close_quest db u qid = Except.ok
      ((close_side_effects db quest).setQuest
         { quest with status := QuestStatus.IN_PROGRESS, updated_at := db.now },
       { quest with status := QuestStatus.IN_PROGRESS,
                    updated_at := db.now }) := by
  unfold close_quest
  rw [hf]
  have h1 : (quest.status != QuestStatus.RECRUITING) = false := by
    rw [hst]
    rfl
  have h2 : (!can_manage_quest db u quest) = false := by
    rw [hperm]
    rfl
  simp only [h1, h2, Bool.false_eq_true, if_false]
  rw [if_neg (Nat.not_lt.mpr hmin)]

/-- Inversion of a successful `complete_quest` call. -/
theorem complete_quest_ok_inv (db : DB) (u : User) (qid : Nat) (db1 : DB)
    (q1 : Quest) (h : complete_quest db u qid = Except.ok (db1, q1)) :
    ∃ quest, get_quest db qid = some quest ∧
      quest.status = QuestStatus.IN_PROGRESS ∧
      can_manage_quest db u quest = true ∧
      q1 = { quest with status := QuestStatus.COMPLETED,
                        completed_at := some db.now, updated_at := db.now } ∧
      db1 = db.setQuest q1 := by
  unfold complete_quest at h
  split at h
  · exact absurd h (by simp)
  · rename_i quest hq
    split at h
    · exact absurd h (by simp)
    · rename_i hst
      split at h
      · exact absurd h (by simp)
      · rename_i hperm
        rw [Except.ok.injEq, Prod.mk.injEq] at h
        obtain ⟨hdb, hq1⟩ := h
        refine ⟨quest, hq, by simpa using hst, by simpa using hperm,
          hq1.symm, ?_⟩
        rw [← hdb, ← hq1]

/-- Inversion of a successful `cancel_quest` call. -/
theorem cancel_quest_ok_inv (db : DB) (u : User) (qid : Nat) (db1 : DB)
    (q1 : Quest) (h : cancel_quest db u qid = Except.ok (db1, q1)) :
    ∃ quest, get_quest db qid = some quest ∧
      (quest.status = QuestStatus.RECRUITING ∨
       quest.status = QuestStatus.IN_PROGRESS) ∧
      can_manage_quest db u quest = true ∧
      q1 = { quest with status := QuestStatus.CANCELLED,
                        updated_at := db.now } ∧
      db1 = db.setQuest q1 := by
  unfold cancel_quest at h
  split at h
  · exact absurd h (by simp)
  · rename_i quest hq
    split at h
    · exact absurd h (by simp)
    · rename_i hst
      split at h
      · exact absurd h (by simp)
      · rename_i hperm
        rw [Except.ok.injEq, Prod.mk.injEq] at h
        obtain ⟨hdb, hq1⟩ := h
        refine ⟨quest, hq, ?_, by simpa using hperm, hq1.symm, ?_⟩
        · revert hst
          cases quest.status <;> simp
        · rw [← hdb, ← hq1]

/-- Inversion of a successful `update_quest` call. -/
theorem update_quest_ok_inv (db : DB) (u : User) (qid : Nat)
    (qin : QuestUpdate) (db1 : DB) (q1 : Quest)
    (h : update_quest db u qid qin = Except.ok (db1, q1)) :
    ∃ quest, get_quest db qid = some quest ∧
      q1 = apply_quest_update quest qin ∧ db1 = db.setQuest q1 := by
  unfold update_quest at h
  split at h
  · exact absurd h (by simp)
  · rename_i quest hq
    split at h
    · exact absurd h (by simp)
    · rename_i hperm
      split at h
      · exact absurd h (by simp)
      · rename_i hsz
        dsimp only at h
        split at h
        · exact absurd h (by simp)
        · rename_i htime
          rw [Except.ok.injEq, Prod.mk.injEq] at h
          obtain ⟨hdb, hq1⟩ := h
          exact ⟨quest, hq, hq1.symm, by rw [← hdb, ← hq1]⟩

/-! ### Concrete fixtures for counterexamples and witnesses -/

def fix_creator : User :=
  { id := 1, is_superuser := false, reputation_score := 0 }

def fix_applicant : User :=
  { id := 2, is_superuser := false, reputation_score := 0 }

def fix_quest : Quest :=
  { id := 10
    creator_id := 1
    title := "Weekend raid group"
    description := "Looking for teammates for a weekend dungeon run"
    objective := "Clear the weekly raid together"
    status := QuestStatus.RECRUITING
    quest_type := QuestType.INDIVIDUAL
    party_size_min := 1
    party_size_max := 5
    parent_party_id := none
    starts_at := none
    deadline := none
    updated_at := 0
    completed_at := none }

def fix_db : DB :=
  { users := [fix_creator, fix_applicant]
    quests := [fix_quest]
    applications := []
    parties := []
    members := []
    ratings := []
    next_id := 100
    now := 50 }

def c1_update_result : Except ApiError (DB × Quest) :=
  update_quest fix_db fix_creator 10 { status := some QuestStatus.COMPLETED }

/-- C1 counterexample: a quest sitting in RECRUITING, updated by its creator
through the generic quest-update endpoint with `status = COMPLETED` — a jump
that is not one of the legal edges — is accepted, and the stored status
changes to COMPLETED instead of staying RECRUITING. -/
theorem c1_generic_update_changes_status_counterexample :
    (get_quest fix_db 10).map Quest.status = some QuestStatus.RECRUITING ∧
    c1_update_result.map (fun p => (get_quest p.1 10).map Quest.status) =
      Except.ok (some QuestStatus.COMPLETED) :=
  ⟨rfl, rfl⟩

/-- C1 (amended): the dedicated endpoints respect the state machine — close
succeeds only from RECRUITING and stores IN_PROGRESS, complete only from
IN_PROGRESS and stores COMPLETED, cancel only from RECRUITING or IN_PROGRESS
and stores CANCELLED — but the generic update endpoint stores any supplied
status value without a transition check. -/
theorem c1_status_edges_amended (db : DB) (u : User) (qid : Nat) :
    (∀ db1 q1, close_quest db u qid = Except.ok (db1, q1) →
       (get_quest db qid).map Quest.status = some QuestStatus.RECRUITING ∧
       (get_quest db1 qid).map Quest.status = some QuestStatus.IN_PROGRESS) ∧
    (∀ db1 q1, complete_quest db u qid = Except.ok (db1, q1) →
       (get_quest db qid).map Quest.status = some QuestStatus.IN_PROGRESS ∧
       (get_quest db1 qid).map Quest.status = some QuestStatus.COMPLETED) ∧
    (∀ db1 q1, cancel_quest db u qid = Except.ok (db1, q1) →
       ((get_quest db qid).map Quest.status = some QuestStatus.RECRUITING ∨
        (get_quest db qid).map Quest.status = some QuestStatus.IN_PROGRESS) ∧
       (get_quest db1 qid).map Quest.status = some QuestStatus.CANCELLED) ∧
    (∀ (qin : QuestUpdate) (s : QuestStatus) db1 q1, qin.status = some s →
       update_quest db u qid qin = Except.ok (db1, q1) →
       (get_quest db1 qid).map Quest.status = some s) := by
  refine ⟨?_, ?_, ?_, ?_⟩
  · intro db1 q1 h
    rcases close_quest_ok_inv db u qid db1 q1 h with
      ⟨quest, hq, hst, hperm, hmin, hq1, hdb1⟩
    constructor
    · rw [hq]
      simp [hst]
    · subst hdb1
      have hfB : get_quest (close_side_effects db quest) qid = some quest := by
        unfold get_quest
        rw [close_side_effects_quests]
        exact hq
      have hfind := get_quest_set (close_side_effects db quest) qid quest q1
        hfB (by rw [hq1])
      rw [hfind, hq1]
      rfl
  · intro db1 q1 h
    rcases complete_quest_ok_inv db u qid db1 q1 h with
      ⟨quest, hq, hst, hperm, hq1, hdb1⟩
    constructor
    · rw [hq]
      simp [hst]
    · subst hdb1
      have hfind := get_quest_set db qid quest q1 hq (by rw [hq1])
      rw [hfind, hq1]
      rfl
  · intro db1 q1 h
    rcases cancel_quest_ok_inv db u qid db1 q1 h with
      ⟨quest, hq, hst, hperm, hq1, hdb1⟩
    constructor
    · rcases hst with hst | hst
      · left
        rw [hq]
        simp [hst]
      · right
        rw [hq]
        simp [hst]
    · subst hdb1
      have hfind := get_quest_set db qid quest q1 hq (by rw [hq1])
      rw [hfind, hq1]
      rfl
  · intro qin s db1 q1 hs h
    rcases update_quest_ok_inv db u qid qin db1 q1 h with ⟨quest, hq, hq1, hdb1⟩
    subst hdb1
    have hfind := get_quest_set db qid quest q1 hq (by rw [hq1]; rfl)
    rw [hfind, hq1]
    simp [apply_quest_update, hs]

def c1w_close_db : DB :=
  match close_quest fix_db fix_creator 10 with
  | Except.ok p => p.1
  | Except.error _ => fix_db

def c1w_close_q : Quest :=
  match close_quest fix_db fix_creator 10 with
  | Except.ok p => p.2
  | Except.error _ => fix_quest

/-- Witness for the amended C1 theorem at a concrete successful close. -/
theorem c1_status_edges_amended_witness :
    (get_quest fix_db 10).map Quest.status = some QuestStatus.RECRUITING ∧
    (get_quest c1w_close_db 10).map Quest.status =
      some QuestStatus.IN_PROGRESS :=
  (c1_status_edges_amended fix_db fix_creator 10).1 c1w_close_db c1w_close_q
    (by rfl)

/-- C2: closing a RECRUITING quest whose APPROVED count plus one (the
creator) is below `party_size_min` always fails — with the invalid-state
outcome (400) whenever the caller is a permitted actor — so the stored
status stays RECRUITING and no party or membership row is written. -/
theorem c2_close_below_min_rejected (db : DB) (u : User) (qid : Nat)
    (quest : Quest) (hf : get_quest db qid = some quest)
    (hst : quest.status = QuestStatus.RECRUITING)
    (hmin : (approved_applications db quest.id).length + 1 <
      quest.party_size_min) :
    ∃ e, close_quest db u qid = Except.error e ∧
      (can_manage_quest db u quest = true → e = ApiError.badRequest) := by
  unfold close_quest
  rw [hf]
  have h1 : (quest.status != QuestStatus.RECRUITING) = false := by
    rw [hst]
    rfl
  simp only [h1, Bool.false_eq_true, if_false]
  by_cases hperm : can_manage_quest db u quest = true
  · have h2 : (!can_manage_quest db u quest) = false := by
      rw [hperm]
      rfl
    simp only [h2, Bool.false_eq_true, if_false]
    rw [if_pos hmin]
    exact ⟨ApiError.badRequest, rfl, fun _ => rfl⟩
  · have h2 : can_manage_quest db u quest = false :=
      Bool.eq_false_iff.mpr hperm
    simp only [h2, Bool.not_false, if_true]
    exact ⟨ApiError.forbidden, rfl, fun hc => absurd hc (by simp [h2])⟩

def c2_quest : Quest := { fix_quest with party_size_min := 3 }

def c2_db : DB := { fix_db with quests := [c2_quest] }

/-- Witness for C2: the creator closing a min-3 quest with no approvals gets
the invalid-state rejection. -/
theorem c2_close_below_min_rejected_witness :
    close_quest c2_db fix_creator 10 = Except.error ApiError.badRequest := by
  rcases c2_close_below_min_rejected c2_db fix_creator 10 c2_quest rfl rfl
    (by decide) with ⟨e, he, himp⟩
  rw [he, himp (by rfl)]

/-- C3: closing an INDIVIDUAL RECRUITING quest with N approved applications
and N + 1 ≥ party_size_min, as a permitted actor, creates exactly one new
party bound to the quest and appends exactly N + 1 active member rows — the
creator first with role OWNER, then one MEMBER row per approved applicant in
application order — and stores the quest as IN_PROGRESS. -/
theorem c3_close_individual_forms_party (db : DB) (u : User) (qid : Nat)
    (quest : Quest) (hf : get_quest db qid = some quest)
    (hqt : quest.quest_type = QuestType.INDIVIDUAL)
    (hst : quest.status = QuestStatus.RECRUITING)
    (hperm : can_manage_quest db u quest = true)
    (hmin : quest.party_size_min ≤
      (approved_applications db quest.id).length + 1) :
    ∃ db1 q1, close_quest db u qid = Except.ok (db1, q1) ∧
      q1.status = QuestStatus.IN_PROGRESS ∧
      get_quest db1 qid = some q1 ∧
      (∃ p : Party, db1.parties = db.parties ++ [p] ∧ p.quest_id = quest.id ∧
        ∃ rows : List PartyMember, db1.members = db.members ++ rows ∧
          rows.length = (approved_applications db quest.id).length + 1 ∧
          (∀ m ∈ rows, m.party_id = p.id ∧ m.status = "active") ∧
          rows.head?.map (fun m => (m.user_id, m.role)) =
            some (quest.creator_id, PartyMemberRole.OWNER) ∧
          rows.tail.map (fun m => (m.user_id, m.role)) =
            (approved_applications db quest.id).map
              (fun a => (a.applicant_id, PartyMemberRole.MEMBER))) := by
  have heval := close_quest_eval db u qid quest hf hst hperm hmin
  refine ⟨_, _, heval, rfl, ?_, ?_⟩
  · have hfB : get_quest (close_side_effects db quest) qid = some quest := by
      unfold get_quest
      rw [close_side_effects_quests]
      exact hf
    exact get_quest_set _ qid quest _ hfB rfl
  · rcases close_side_effects_individual db quest hqt with ⟨hp, hm⟩
    refine ⟨{ id := db.next_id
              quest_id := quest.id
              name := some ("Party for " ++ quest.title)
              description := some ("Party formed from quest: " ++
                                   quest.objective)
              status := PartyStatus.ACTIVE }, ?_, rfl, ?_⟩
    · rw [setQuest_parties]
      exact hp
    · refine ⟨{ id := db.next_id + 1
                party_id := db.next_id
                user_id := quest.creator_id
                role := PartyMemberRole.OWNER
                status := "active"
                left_at := none } ::
              member_rows db.next_id (db.next_id + 2)
                (approved_applications db quest.id), ?_, ?_, ?_, ?_, ?_⟩
      · rw [setQuest_members]
        exact hm
      · rw [List.length_cons, member_rows_length]
      · intro m hmem
        rcases List.mem_cons.mp hmem with h | h
        · subst h
          exact ⟨rfl, rfl⟩
        · exact member_rows_fields db.next_id
            (approved_applications db quest.id) (db.next_id + 2) m h
      · rfl
      · rw [List.tail_cons]
        exact member_rows_users db.next_id
          (approved_applications db quest.id) (db.next_id + 2)

def fix_app_approved : QuestApplication :=
  { id := 20
    quest_id := 10
    applicant_id := 2
    status := ApplicationStatus.APPROVED
    message := "count me in"
    proposed_role := none
    relevant_skills := none
    reviewer_feedback := none
    reviewed_at := none
    updated_at := 0 }

def c3_quest : Quest := { fix_quest with party_size_min := 2 }

def c3_db : DB :=
  { fix_db with quests := [c3_quest], applications := [fix_app_approved] }

def c3w_db : DB :=
  match close_quest c3_db fix_creator 10 with
  | Except.ok p => p.1
  | Except.error _ => c3_db

def c3w_q : Quest :=
  match close_quest c3_db fix_creator 10 with
  | Except.ok p => p.2
  | Except.error _ => c3_quest

/-- Witness for C3: one approved applicant and min 2 — the close succeeds
and the new state holds one party and two member rows. -/
theorem c3_close_individual_forms_party_witness :
    c3w_db.parties.length = c3_db.parties.length + 1 ∧
    c3w_db.members.length = c3_db.members.length + 2 := by
  rcases c3_close_individual_forms_party c3_db fix_creator 10 c3_quest rfl rfl
      rfl rfl (by decide) with
    ⟨db1, q1, hok, hq1st, hfind, p, hp, hpq, rows, hr, hlen, hall, hhead, htail⟩
  have hc : c3w_db = db1 := by
    unfold c3w_db
    rw [hok]
  rw [hc]
  constructor
  · rw [hp, List.length_append]
    rfl
  · rw [hr, List.length_append, hlen]
    rfl

/-- C4: a successful close of a PARTY_EXPANSION quest creates no party row;
it only appends membership rows, each an active MEMBER of the parent party
for an approved applicant who had no membership row there (any status), with
at most one row per user, so the per-user row count for the parent party
never exceeds max 1 (previous count). -/
theorem c4_close_expansion_idempotent_merge (db : DB) (u : User) (qid : Nat)
    (quest : Quest) (db1 : DB) (q1 : Quest)
    (hf : get_quest db qid = some quest)
    (hqt : quest.quest_type = QuestType.PARTY_EXPANSION)
    (h : close_quest db u qid = Except.ok (db1, q1)) :
    db1.parties = db.parties ∧
    ∃ rows : List PartyMember, db1.members = db.members ++ rows ∧
      (quest.parent_party_id = none → rows = []) ∧
      (∀ ppid, quest.parent_party_id = some ppid →
        (∀ m ∈ rows, m.party_id = ppid ∧ m.role = PartyMemberRole.MEMBER ∧
           m.status = "active" ∧
           m.user_id ∈ (approved_applications db quest.id).map
             QuestApplication.applicant_id) ∧
        (∀ uid, 0 < pair_count db.members ppid uid →
           ∀ m ∈ rows, m.user_id ≠ uid) ∧
        (∀ uid, pair_count db1.members ppid uid ≤
           max 1 (pair_count db.members ppid uid))) := by
  rcases close_quest_ok_inv db u qid db1 q1 h with
    ⟨quest2, hq2, hst, hperm, hmin, hq1, hdb1⟩
  have hqq : quest2 = quest := by
    rw [hq2] at hf
    exact Option.some.inj hf
  subst hqq
  subst hdb1
  constructor
  · rw [setQuest_parties]
    unfold close_side_effects
    rw [hqt]
    cases hpp : quest2.parent_party_id with
    | none => rfl
    | some ppid =>
      exact expansion_fold_parties ppid (approved_applications db quest2.id) db
  · cases hpp : quest2.parent_party_id with
    | none =>
      refine ⟨[], ?_, fun _ => rfl, ?_⟩
      · rw [setQuest_members]
        unfold close_side_effects
        rw [hqt, hpp]
        simp
      · intro ppid hsome
        exact absurd hsome (by simp)
    | some ppid =>
      rcases expansion_fold_spec ppid (approved_applications db quest2.id) db
        with ⟨rows, h1, h2, h3, h4⟩
      have hmembers : ((close_side_effects db quest2).setQuest q1).members =
          db.members ++ rows := by
        rw [setQuest_members]
        unfold close_side_effects
        rw [hqt, hpp]
        exact h1
      refine ⟨rows, hmembers, ?_, ?_⟩
      · intro hnone
        exact absurd hnone (by simp)
      · intro ppid2 hsome
        have hpe : ppid = ppid2 := Option.some.inj hsome
        subst hpe
        refine ⟨h2, h3, ?_⟩
        intro uid
        rw [hmembers, pair_count_append]
        by_cases hpos : 0 < pair_count db.members ppid uid
        · have hz : pair_count rows ppid uid = 0 := by
            rw [pair_count, List.length_eq_zero, List.filter_eq_nil_iff]
            intro m hmm hpm
            apply h3 uid hpos m hmm
            simp only [Bool.and_eq_true, beq_iff_eq] at hpm
            exact hpm.2
          rw [hz, Nat.add_zero]
          exact Nat.le_max_right 1 _
        · have hz : pair_count db.members ppid uid = 0 :=
            Nat.eq_zero_of_not_pos hpos
          rw [hz, Nat.zero_add]
          have h5 := h4 uid
          simpa using h5

def c4_quest : Quest :=
  { fix_quest with
    quest_type := QuestType.PARTY_EXPANSION
    parent_party_id := some 30 }

def c4_party : Party :=
  { id := 30, quest_id := 10, name := none, description := none,
    status := PartyStatus.ACTIVE }

def c4_member_existing : PartyMember :=
  { id := 40, party_id := 30, user_id := 2, role := PartyMemberRole.MEMBER,
    status := "active", left_at := none }

def c4_app_user2 : QuestApplication := fix_app_approved

def c4_app_user3 : QuestApplication :=
  { fix_app_approved with id := 21, applicant_id := 3 }

def c4_db : DB :=
  { fix_db with
    quests := [c4_quest]
    applications := [c4_app_user2, c4_app_user3]
    parties := [c4_party]
    members := [c4_member_existing] }

def c4w_db : DB :=
  match close_quest c4_db fix_creator 10 with
  | Except.ok p => p.1
  | Except.error _ => c4_db

def c4w_q : Quest :=
  match close_quest c4_db fix_creator 10 with
  | Except.ok p => p.2
  | Except.error _ => c4_quest

/-- Witness for C4: with approved applicants 2 (already a member) and 3
(not), closing adds no party row and leaves exactly one membership row each
for users 2 and 3 in party 30. -/
theorem c4_close_expansion_idempotent_merge_witness :
    c4w_db.parties = c4_db.parties ∧
    pair_count c4w_db.members 30 2 = 1 ∧
    pair_count c4w_db.members 30 3 = 1 :=
  ⟨(c4_close_expansion_idempotent_merge c4_db fix_creator 10 c4_quest c4w_db
      c4w_q rfl rfl (by rfl)).1,
   by rfl, by rfl⟩

def c5_update_result : Except ApiError (DB × Quest) :=
  update_quest fix_db fix_creator 10 { party_size_min := some 10 }

/-- C5 failing input: a quest stored with sizes (1, 5) updated by its
creator with only `party_size_min = 10` is accepted, and the stored pair
becomes (10, 5), violating `party_size_min ≤ party_size_max`; the handler
only re-validates the pair when BOTH sizes appear in the payload. -/
theorem c5_one_sided_update_breaks_size_invariant :
    fix_quest.party_size_min ≤ fix_quest.party_size_max ∧
    c5_update_result.map
      (fun p => (get_quest p.1 10).map
        (fun q => (q.party_size_min, q.party_size_max))) =
      Except.ok (some (10, 5)) :=
  ⟨by decide, rfl⟩

/-- The number of non-terminal (PENDING or APPROVED) applications one user
holds for one quest. -/
def active_application_count (db : DB) (applicant_id quest_id : Nat) : Nat :=
  (db.applications.filter
    (fun a => a.applicant_id == applicant_id && a.quest_id == quest_id &&
      (a.status == ApplicationStatus.PENDING ||
       a.status == ApplicationStatus.APPROVED))).length

/-- Appending one application row changes the active count by 1 exactly when
the new row matches the (user, quest) pair and is non-terminal. -/
theorem active_count_append_new (db : DB) (napp : QuestApplication)
    (uid2 qid2 : Nat) :
    active_application_count
      { db with applications := db.applications ++ [napp]
                next_id := db.next_id + 1 } uid2 qid2 =
      active_application_count db uid2 qid2 +
      (if napp.applicant_id == uid2 && napp.quest_id == qid2 &&
          (napp.status == ApplicationStatus.PENDING ||
           napp.status == ApplicationStatus.APPROVED) then 1 else 0) := by
  unfold active_application_count
  rw [List.filter_append, List.length_append]
  congr 1
  rw [List.filter_cons]
  split
  · rfl
  · rfl

/-- When the duplicate-application scan of `apply_to_quest` answers false,
the user holds no active application for the quest. -/
theorem no_active_of_any_false (db : DB) (u : User) (qid : Nat)
    (hany : ¬((get_user_applications db u.id).any
      (fun a => a.quest_id == qid &&
        (a.status == ApplicationStatus.PENDING ||
         a.status == ApplicationStatus.APPROVED)) = true)) :
    active_application_count db u.id qid = 0 := by
  unfold active_application_count
  rw [List.length_eq_zero, List.filter_eq_nil_iff]
  intro x hx hpx
  apply hany
  rw [List.any_eq_true]
  simp only [Bool.and_eq_true] at hpx
  refine ⟨x, ?_, ?_⟩
  · unfold get_user_applications
    rw [List.mem_filter]
    exact ⟨hx, hpx.1.1⟩
  · rw [Bool.and_eq_true]
    exact ⟨hpx.1.2, hpx.2⟩

/-- C6: applying while already holding a PENDING or APPROVED application for
the same quest is rejected (so no new row appears), and a successful apply
preserves the at-most-one-active-application-per-(user, quest) invariant. -/
theorem c6_single_active_application (db : DB) (u : User) (qid : Nat)
    (ain : QuestApplicationCreate) :
    (∀ a ∈ db.applications, a.applicant_id = u.id → a.quest_id = qid →
       (a.status = ApplicationStatus.PENDING ∨
        a.status = ApplicationStatus.APPROVED) →
       ∃ e, apply_to_quest db u qid ain = Except.error e) ∧
    (∀ db1 napp, apply_to_quest db u qid ain = Except.ok (db1, napp) →
       ∀ uid2 qid2, active_application_count db uid2 qid2 ≤ 1 →
         active_application_count db1 uid2 qid2 ≤ 1) := by
  constructor
  · intro a ha hap haq hst2
    unfold apply_to_quest
    cases hq : get_quest db qid with
    | none => exact ⟨ApiError.notFound, rfl⟩
    | some quest =>
      dsimp only
      by_cases h1 : (quest.status != QuestStatus.RECRUITING) = true
      · exact ⟨ApiError.badRequest, by rw [if_pos h1]⟩
      · rw [if_neg h1]
        by_cases h2 : (quest.creator_id == u.id) = true
        · exact ⟨ApiError.badRequest, by rw [if_pos h2]⟩
        · rw [if_neg h2]
          have hany : ((get_user_applications db u.id).any
              (fun x => x.quest_id == qid &&
                (x.status == ApplicationStatus.PENDING ||
                 x.status == ApplicationStatus.APPROVED))) = true := by
            rw [List.any_eq_true]
            refine ⟨a, ?_, ?_⟩
            · unfold get_user_applications
              rw [List.mem_filter]
              refine ⟨ha, ?_⟩
              rw [hap]
              exact beq_self_eq_true u.id
            · rw [Bool.and_eq_true, Bool.or_eq_true]
              refine ⟨by rw [haq]; exact beq_self_eq_true qid, ?_⟩
              rcases hst2 with h | h
              · exact Or.inl (by rw [h]; rfl)
              · exact Or.inr (by rw [h]; rfl)
          exact ⟨ApiError.badRequest, by rw [if_pos hany]⟩
  · intro db1 napp h uid2 qid2 hinv
    unfold apply_to_quest at h
    split at h
    · exact absurd h (by simp)
    · rename_i quest hq
      split at h
      · exact absurd h (by simp)
      · rename_i h1
        split at h
        · exact absurd h (by simp)
        · rename_i h2
          split at h
          · exact absurd h (by simp)
          · rename_i hany
            rw [Except.ok.injEq, Prod.mk.injEq] at h
            obtain ⟨hdb, hna⟩ := h
            subst hdb
            rw [active_count_append_new]
            by_cases hcase : uid2 = u.id ∧ qid2 = qid
            · rw [hcase.1, hcase.2, if_pos (by simp),
                no_active_of_any_false db u qid hany]
            · split
              · rename_i hpred
                exfalso
                apply hcase
                simp only [Bool.and_eq_true, beq_iff_eq] at hpred
                exact ⟨hpred.1.1.symm, hpred.1.2.symm⟩
              · rw [Nat.add_zero]
                exact hinv

def fix_app_pending : QuestApplication :=
  { fix_app_approved with id := 21, status := ApplicationStatus.PENDING }

def c6_db : DB := { fix_db with applications := [fix_app_pending] }

/-- Witness for C6: a second apply while a PENDING application exists is
rejected. -/
theorem c6_single_active_application_witness :
    (apply_to_quest c6_db fix_applicant 10 { message := "second try" }).isOk =
      false := by
  rcases (c6_single_active_application c6_db fix_applicant 10
      { message := "second try" }).1 fix_app_pending (by decide) rfl rfl
      (Or.inl rfl) with ⟨e, he⟩
  rw [he]
  rfl

def c7_db : DB := { fix_db with applications := [fix_app_pending] }

def c7_result : Except ApiError (DB × QuestApplication) :=
  update_application c7_db fix_creator 21
    { status := some ApplicationStatus.WITHDRAWN }

/-- C7 counterexample: the quest creator — who is not the applicant — moves
a PENDING application to WITHDRAWN through the generic application-update
endpoint, and the call succeeds; the claim says WITHDRAWN is reachable only
by the applicant. -/
theorem c7_creator_withdraws_counterexample :
    fix_app_pending.applicant_id ≠ fix_creator.id ∧
    c7_result.map (fun p => p.2.status) =
      Except.ok ApplicationStatus.WITHDRAWN :=
  ⟨by decide, rfl⟩

/-- Inversion of a successful `update_application` call: the application and
its quest exist; a supplied status needs the quest creator (or superuser)
and a PENDING application; a supplied message or proposed role needs the
applicant (or superuser) and a PENDING application; the stored status is the
supplied one. -/
theorem update_application_ok_inv (db : DB) (u : User) (aid : Nat)
    (ain : QuestApplicationUpdate) (db1 : DB) (a1 : QuestApplication)
    (h : update_application db u aid ain = Except.ok (db1, a1)) :
    ∃ app quest, get_quest_application db aid = some app ∧
      get_quest db app.quest_id = some quest ∧
      (ain.status.isSome = true →
        (quest.creator_id = u.id ∨ u.is_superuser = true) ∧
        app.status = ApplicationStatus.PENDING) ∧
      ((ain.message.isSome = true ∨ ain.proposed_role.isSome = true) →
        (app.applicant_id = u.id ∨ u.is_superuser = true) ∧
        app.status = ApplicationStatus.PENDING) ∧
      a1.status = ain.status.getD app.status ∧
      db1 = db.setApplication a1 := by
  unfold update_application at h
  split at h
  · exact absurd h (by simp)
  · rename_i app happ
    split at h
    · exact absurd h (by simp)
    · rename_i quest hq
      dsimp only at h
      split at h
      · exact absurd h (by simp)
      · rename_i hc1
        split at h
        · exact absurd h (by simp)
        · rename_i hc2
          split at h
          · exact absurd h (by simp)
          · rename_i hc3
            split at h
            · exact absurd h (by simp)
            · rename_i hc4
              unfold update_quest_application at h
              rw [Except.ok.injEq, Prod.mk.injEq] at h
              obtain ⟨hdb, ha1⟩ := h
              refine ⟨app, quest, happ, hq, ?_, ?_, ?_, ?_⟩
              · intro hsome
                constructor
                · by_contra hC
                  push_neg at hC
                  obtain ⟨hcr, hsu⟩ := hC
                  apply hc1
                  rw [hsome, beq_eq_false_iff_ne.mpr hcr,
                    Bool.eq_false_iff.mpr hsu]
                  rfl
                · by_contra hP
                  apply hc2
                  rw [hsome, bne_iff_ne.mpr hP]
                  rfl
              · intro hsome2
                have hsome2b : (ain.message.isSome ||
                    ain.proposed_role.isSome) = true := by
                  rw [Bool.or_eq_true]
                  exact hsome2
                constructor
                · by_contra hC
                  push_neg at hC
                  obtain ⟨hap, hsu⟩ := hC
                  apply hc3
                  rw [hsome2b, beq_eq_false_iff_ne.mpr hap,
                    Bool.eq_false_iff.mpr hsu]
                  rfl
                · by_contra hP
                  apply hc4
                  rw [hsome2b, bne_iff_ne.mpr hP]
                  rfl
              · rw [← ha1]
              · rw [← hdb, ← ha1]

/-- Inversion of a successful `withdraw_application` call: only the
applicant (or a superuser), only from PENDING, and the row is stored as
WITHDRAWN with a bumped `updated_at`. -/
theorem withdraw_application_ok_inv (db : DB) (u : User) (aid : Nat)
    (db1 : DB) (h : withdraw_application db u aid = Except.ok db1) :
    ∃ app, get_quest_application db aid = some app ∧
      (app.applicant_id = u.id ∨ u.is_superuser = true) ∧
      app.status = ApplicationStatus.PENDING ∧
      db1 = db.setApplication
        { app with status := ApplicationStatus.WITHDRAWN,
                   updated_at := db.now } := by
  unfold withdraw_application at h
  split at h
  · exact absurd h (by simp)
  · rename_i app happ
    split at h
    · exact absurd h (by simp)
    · rename_i hc1
      split at h
      · exact absurd h (by simp)
      · rename_i hc2
        refine ⟨app, happ, ?_, ?_, ?_⟩
        · by_contra hC
          push_neg at hC
          obtain ⟨hap, hsu⟩ := hC
          apply hc1
          rw [bne_iff_ne.mpr hap, Bool.eq_false_iff.mpr hsu]
          rfl
        · by_contra hP
          exact hc2 (bne_iff_ne.mpr hP)
        · rw [Except.ok.injEq] at h
          rw [← h]
          rfl

/-- C7 (amended): through the update endpoint any status change — to any of
the five values, WITHDRAWN included — requires the quest creator or a
superuser and a PENDING application; the withdraw endpoint requires the
applicant or a superuser and a PENDING application and stores WITHDRAWN;
message/role edits require the applicant or a superuser and a PENDING
application; hence no status change is accepted once the application is
terminal. -/
theorem c7_application_transitions_amended (db : DB) (u : User) (aid : Nat) :
    (∀ (ain : QuestApplicationUpdate) db1 a1,
       update_application db u aid ain = Except.ok (db1, a1) →
       ain.status.isSome = true →
       ∃ app quest, get_quest_application db aid = some app ∧
         get_quest db app.quest_id = some quest ∧
         app.status = ApplicationStatus.PENDING ∧
         (quest.creator_id = u.id ∨ u.is_superuser = true) ∧
         a1.status = ain.status.getD app.status) ∧
    (∀ (ain : QuestApplicationUpdate) db1 a1,
       update_application db u aid ain = Except.ok (db1, a1) →
       (ain.message.isSome = true ∨ ain.proposed_role.isSome = true) →
       ∃ app, get_quest_application db aid = some app ∧
         app.status = ApplicationStatus.PENDING ∧
         (app.applicant_id = u.id ∨ u.is_superuser = true)) ∧
    (∀ db1, withdraw_application db u aid = Except.ok db1 →
       ∃ app, get_quest_application db aid = some app ∧
         app.status = ApplicationStatus.PENDING ∧
         (app.applicant_id = u.id ∨ u.is_superuser = true) ∧
         get_quest_application db1 aid =
           some { app with status := ApplicationStatus.WITHDRAWN,
                           updated_at := db.now }) := by
  refine ⟨?_, ?_, ?_⟩
  · intro ain db1 a1 h hsome
    rcases update_application_ok_inv db u aid ain db1 a1 h with
      ⟨app, quest, happ, hq, hstat, hedit, hs1, hdb1⟩
    rcases hstat hsome with ⟨hwho, hpend⟩
    exact ⟨app, quest, happ, hq, hpend, hwho, hs1⟩
  · intro ain db1 a1 h hsome2
    rcases update_application_ok_inv db u aid ain db1 a1 h with
      ⟨app, quest, happ, hq, hstat, hedit, hs1, hdb1⟩
    rcases hedit hsome2 with ⟨hwho, hpend⟩
    exact ⟨app, happ, hpend, hwho⟩
  · intro db1 h
    rcases withdraw_application_ok_inv db u aid db1 h with
      ⟨app, happ, hwho, hpend, hdb1⟩
    refine ⟨app, happ, hpend, hwho, ?_⟩
    rw [hdb1]
    exact get_application_set db aid app _ happ rfl

def c7w_db : DB :=
  match withdraw_application c7_db fix_applicant 21 with
  | Except.ok d => d
  | Except.error _ => c7_db

/-- Witness for the amended C7 theorem: the applicant withdraws their own
PENDING application and the stored status becomes WITHDRAWN. -/
theorem c7_application_transitions_amended_witness :
    (get_quest_application c7w_db 21).map QuestApplication.status =
      some ApplicationStatus.WITHDRAWN := by
  rcases (c7_application_transitions_amended c7_db fix_applicant 21).2.2
      c7w_db (by rfl) with ⟨app, happ, hpend, hwho, hstored⟩
  rw [hstored]
  rfl

/-- C8: as long as the party's quest row still exists, removing the party
member whose user id is the quest's creator is rejected for every actor, so
the membership row keeps its status and `left_at`. -/
theorem c8_creator_never_removed (db : DB) (u : User) (pid mid : Nat)
    (party : Party) (member : PartyMember) (quest : Quest)
    (hp : get_party db pid = some party)
    (hm : get_party_member db mid = some member)
    (hmp : member.party_id = pid)
    (hq : get_quest db party.quest_id = some quest)
    (hcreator : member.user_id = quest.creator_id) :
    ∃ e, remove_party_member db u pid mid = Except.error e := by
  unfold remove_party_member
  rw [hp, hm]
  dsimp only
  have h1 : (member.party_id != pid) = false := by
    rw [hmp]
    exact bne_self_eq_false pid
  simp only [h1, Bool.false_eq_true, if_false]
  rw [hq]
  dsimp only
  by_cases hperm : (!(quest.creator_id == u.id) &&
      !((get_party_members db pid).any
        (fun m => m.user_id == u.id &&
          (m.role == PartyMemberRole.OWNER ||
           m.role == PartyMemberRole.MODERATOR))) &&
      !(member.user_id == u.id) &&
      !u.is_superuser) = true
  all_goals {
    first
    | (exact ⟨ApiError.forbidden, by rw [if_pos hperm]⟩)
    | (rw [if_neg hperm]
       refine ⟨ApiError.badRequest, ?_⟩
       rw [if_pos ?_]
       rw [hcreator]
       exact beq_self_eq_true quest.creator_id)
  }

def c8_party : Party :=
  { id := 30, quest_id := 10, name := none, description := none,
    status := PartyStatus.ACTIVE }

def c8_member_creator : PartyMember :=
  { id := 40, party_id := 30, user_id := 1, role := PartyMemberRole.OWNER,
    status := "active", left_at := none }

def c8_db : DB :=
  { fix_db with parties := [c8_party], members := [c8_member_creator] }

/-- Witness for C8: even the creator removing their own membership row is
rejected. -/
theorem c8_creator_never_removed_witness :
    (remove_party_member c8_db fix_creator 30 40).isOk = false := by
  rcases c8_creator_never_removed c8_db fix_creator 30 40 c8_party
    c8_member_creator fix_quest rfl rfl rfl rfl rfl with ⟨e, he⟩
  rw [he]
  rfl

/-- The claim-side formula: arithmetic mean of `overall_rating` over the
ratings a user currently receives, rounded to two decimals, 0 when there are
none. -/
def mean_reputation (db : DB) (user_id : Nat) : ℚ :=
  let received := db.ratings.filter (fun r => r.rated_user_id == user_id)
  if received.length = 0 then 0
  else round2 ((received.map (fun r => (r.overall_rating : ℚ))).sum /
    received.length)

/-- `mean_reputation` only reads the rating table. -/
theorem mean_reputation_congr (db1 db2 : DB) (uid : Nat)
    (h : db1.ratings = db2.ratings) :
    mean_reputation db1 uid = mean_reputation db2 uid := by
  unfold mean_reputation
  rw [h]

/-- `update_user_reputation` stores exactly the two-decimal mean of the
ratings present in its input state, and leaves the rating table alone. -/
theorem reputation_update_stores_mean (db : DB) (uid : Nat) :
    (update_user_reputation db uid).ratings = db.ratings ∧
    (∀ u1, get_user (update_user_reputation db uid) uid = some u1 →
      u1.reputation_score = mean_reputation db uid) := by
  unfold update_user_reputation
  cases hu : get_user db uid with
  | none =>
    refine ⟨rfl, ?_⟩
    intro u1 h
    rw [hu] at h
    exact absurd h (by simp)
  | some user =>
    refine ⟨rfl, ?_⟩
    intro u1 h
    have hfind := get_user_set db uid user
      { user with reputation_score :=
          (get_user_rating_summary db uid).average_overall } hu rfl
    rw [hfind] at h
    have hu1 : u1 = { user with reputation_score :=
        (get_user_rating_summary db uid).average_overall } :=
      (Option.some.inj h).symm
    rw [hu1]
    show (get_user_rating_summary db uid).average_overall =
      mean_reputation db uid
    unfold get_user_rating_summary mean_reputation rating_average
    by_cases hlen :
        (db.ratings.filter (fun r => r.rated_user_id == uid)).length = 0
    · simp [hlen]
    · simp [hlen]

/-- C9: after every successful rating create, update or delete, the rated
user's stored reputation equals the two-decimal mean of `overall_rating`
over the ratings they receive in the resulting state (0 when none). -/
theorem c9_reputation_is_rounded_mean (db : DB) :
    (∀ (rin : RatingCreate) (rater_id : Nat) db1 r,
       create_rating db rin rater_id = Except.ok (db1, r) →
       ∀ u1, get_user db1 rin.rated_user_id = some u1 →
         u1.reputation_score = mean_reputation db1 rin.rated_user_id) ∧
    (∀ (r0 : Rating) (rupd : RatingUpdate) u1,
       get_user (update_rating db r0 rupd).1 r0.rated_user_id = some u1 →
       u1.reputation_score =
         mean_reputation (update_rating db r0 rupd).1 r0.rated_user_id) ∧
    (∀ (rid : Nat) db1 r, delete_rating db rid = (db1, some r) →
       ∀ u1, get_user db1 r.rated_user_id = some u1 →
         u1.reputation_score = mean_reputation db1 r.rated_user_id) := by
  refine ⟨?_, ?_, ?_⟩
  · intro rin rater_id db1 r h u1 hu1
    unfold create_rating at h
    split at h
    · exact absurd h (by simp)
    · rename_i party hp
      split at h
      · exact absurd h (by simp)
      · rename_i hs1
        split at h
        · exact absurd h (by simp)
        · rename_i hs2
          split at h
          · exact absurd h (by simp)
          · rename_i hs3
            split at h
            · exact absurd h (by simp)
            · rename_i hs4
              split at h
              · exact absurd h (by simp)
              · rename_i hs5
                rw [Except.ok.injEq, Prod.mk.injEq] at h
                obtain ⟨hdb, hr⟩ := h
                rw [← hdb] at hu1 ⊢
                rcases reputation_update_stores_mean _ rin.rated_user_id with
                  ⟨hrt, hscore⟩
                rw [mean_reputation_congr _ _ _ hrt]
                exact hscore u1 hu1
  · intro r0 rupd u1 hu1
    unfold update_rating at hu1 ⊢
    dsimp only at hu1 ⊢
    rcases reputation_update_stores_mean _ r0.rated_user_id with ⟨hrt, hscore⟩
    rw [mean_reputation_congr _ _ _ hrt]
    exact hscore u1 hu1
  · intro rid db1 r h u1 hu1
    unfold delete_rating at h
    split at h
    · rename_i rating hrr
      rw [Prod.mk.injEq] at h
      obtain ⟨hdb, hr⟩ := h
      have hrq : rating = r := Option.some.inj hr
      subst hrq
      rw [← hdb] at hu1 ⊢
      rcases reputation_update_stores_mean _ rating.rated_user_id with
        ⟨hrt, hscore⟩
      rw [mean_reputation_congr _ _ _ hrt]
      exact hscore u1 hu1
    · rw [Prod.mk.injEq] at h
      exact absurd h.2 (by simp)

def c9_party : Party :=
  { id := 30, quest_id := 10, name := none, description := none,
    status := PartyStatus.COMPLETED }

def c9_member1 : PartyMember :=
  { id := 40, party_id := 30, user_id := 1, role := PartyMemberRole.OWNER,
    status := "active", left_at := none }

def c9_member2 : PartyMember :=
  { id := 41, party_id := 30, user_id := 2, role := PartyMemberRole.MEMBER,
    status := "active", left_at := none }

def c9_db : DB :=
  { fix_db with parties := [c9_party], members := [c9_member1, c9_member2] }

def c9_rin : RatingCreate :=
  { party_id := 30
    rated_user_id := 2
    overall_rating := 4
    collaboration_rating := 5
    communication_rating := 3
    reliability_rating := 4
    skill_rating := 4 }

def c9w_db : DB :=
  match create_rating c9_db c9_rin 1 with
  | Except.ok p => p.1
  | Except.error _ => c9_db

def c9w_rating : Rating :=
  match create_rating c9_db c9_rin 1 with
  | Except.ok p => p.2
  | Except.error _ =>
    { id := 0, party_id := 0, rater_id := 0, rated_user_id := 0,
      overall_rating := 1, collaboration_rating := 1,
      communication_rating := 1, reliability_rating := 1, skill_rating := 1,
      would_collaborate_again := true, review_text := none, updated_at := 0 }

def c9w_user : User :=
  match get_user c9w_db 2 with
  | some w => w
  | none => fix_applicant

/-- Witness for C9: user 1 rates user 2 with overall 4 in a completed party;
the stored reputation of user 2 equals the recomputed mean. -/
theorem c9_reputation_is_rounded_mean_witness :
    c9w_user.reputation_score = mean_reputation c9w_db 2 :=
  (c9_reputation_is_rounded_mean c9_db).1 c9_rin 1 c9w_db c9w_rating (by rfl)
    c9w_user (by rfl)

/-- C10: closing never consults `party_size_max` — an INDIVIDUAL RECRUITING
quest whose N approved applications satisfy the minimum closes successfully
and appends all N + 1 member rows even when N + 1 exceeds
`party_size_max` — while the explicit add-party-member endpoint rejects an
addition once the active member count has reached the quest's
`party_size_max`. -/
theorem c10_close_ignores_capacity (db : DB) (u : User) (qid : Nat)
    (quest : Quest) (hf : get_quest db qid = some quest)
    (hqt : quest.quest_type = QuestType.INDIVIDUAL)
    (hst : quest.status = QuestStatus.RECRUITING)
    (hperm : can_manage_quest db u quest = true)
    (hmin : quest.party_size_min ≤
      (approved_applications db quest.id).length + 1)
    (hover : quest.party_size_max <
      (approved_applications db quest.id).length + 1) :
    (∃ db1 q1, close_quest db u qid = Except.ok (db1, q1) ∧
       ∃ rows : List PartyMember, db1.members = db.members ++ rows ∧
         rows.length = (approved_applications db quest.id).length + 1) ∧
    (∀ (pid : Nat) (party : Party) (q2 : Quest) (mcin : PartyMemberCreate),
       get_party db pid = some party →
       get_quest db party.quest_id = some q2 →
       (q2.creator_id = u.id ∨ u.is_superuser = true ∨
         ((get_party_members db pid).any
           (fun m => m.user_id == u.id &&
             (m.role == PartyMemberRole.OWNER ||
              m.role == PartyMemberRole.MODERATOR))) = true) →
       ((get_party_members db pid).any
         (fun m => m.user_id == mcin.user_id && m.status == "active")) =
           false →
       q2.party_size_max ≤
         ((get_party_members db pid).filter
           (fun m => m.status == "active")).length →
       add_party_member db u pid mcin = Except.error ApiError.badRequest) := by
  constructor
  · have heval := close_quest_eval db u qid quest hf hst hperm hmin
    refine ⟨_, _, heval, ?_⟩
    rcases close_side_effects_individual db quest hqt with ⟨hp, hm⟩
    refine ⟨{ id := db.next_id + 1
              party_id := db.next_id
              user_id := quest.creator_id
              role := PartyMemberRole.OWNER
              status := "active"
              left_at := none } ::
            member_rows db.next_id (db.next_id + 2)
              (approved_applications db quest.id), ?_, ?_⟩
    · rw [setQuest_members]
      exact hm
    · rw [List.length_cons, member_rows_length]
  · intro pid party q2 mcin hp hq2 hwho hnotmem hcap
    unfold add_party_member
    rw [hp]
    dsimp only
    rw [hq2]
    dsimp only
    have hpermf : (!(q2.creator_id == u.id) &&
        !((get_party_members db pid).any
          (fun m => m.user_id == u.id &&
            (m.role == PartyMemberRole.OWNER ||
             m.role == PartyMemberRole.MODERATOR))) &&
        !u.is_superuser) = false := by
      rcases hwho with h | h | h
      · rw [beq_iff_eq.mpr h]
        rfl
      · rw [h]
        simp
      · rw [h]
        simp
    simp only [hpermf, Bool.false_eq_true, if_false]
    simp only [hnotmem, Bool.false_eq_true, if_false]
    rw [if_pos ?_]
    exact decide_eq_true hcap

def c10_quest : Quest := { fix_quest with party_size_max := 1 }

def c10_db : DB :=
  { fix_db with
    quests := [c10_quest]
    applications := [fix_app_approved]
    parties := [c8_party]
    members := [c8_member_creator] }

def c10w_db : DB :=
  match close_quest c10_db fix_creator 10 with
  | Except.ok p => p.1
  | Except.error _ => c10_db

def c10w_q : Quest :=
  match close_quest c10_db fix_creator 10 with
  | Except.ok p => p.2
  | Except.error _ => c10_quest

/-- Witness for C10: with `party_size_max = 1`, the close still succeeds and
appends two member rows, while adding a third user to the already-full party
through the member endpoint is rejected. -/
theorem c10_close_ignores_capacity_witness :
    c10w_db.members.length = c10_db.members.length + 2 ∧
    add_party_member c10_db fix_creator 30 { user_id := 3 } =
      Except.error ApiError.badRequest := by
  rcases c10_close_ignores_capacity c10_db fix_creator 10 c10_quest rfl rfl
      rfl rfl (by decide) (by decide) with ⟨⟨db1, q1, hok, rows, hr, hlen⟩, hadd⟩
  constructor
  · have hc : c10w_db = db1 := by
      unfold c10w_db
      rw [hok]
    rw [hc, hr, List.length_append, hlen]
    rfl
  · exact hadd 30 c8_party c10_quest { user_id := 3 } rfl rfl (Or.inl rfl)
      (by rfl) (by decide)
